import Mathlib

/-!
Shallow embedding of the `jsonrpc-types` crate (`src/lib.rs`).

The crate declares four data types — `Version`, `Header`, `JsonRpcRequest<T>`,
`Response<R, E>` (with the wrapper `JsonRpcResponse<R, E>`) — whose JSON codecs
are produced by the serde derive attributes on the declarations:
`#[serde(rename = "1.0" / "2.0")]` on the `Version` variants,
`#[serde(flatten)]` on both fields of `JsonRpcRequest`, and
`#[serde(skip_serializing_if = "Option::is_none")]` on both fields of
`Response`.  We embed JSON values as an inductive type (objects as ordered
association lists) and transcribe the derived serializers and deserializers:
struct deserialization walks the object's entries in order, decodes the known
keys, silently skips unknown keys, defaults missing `Option` fields to `none`,
and reports a missing required field after the walk.
-/

/-- JSON values.  Numbers are integers, which covers every number the crate
reads or writes (`usize` ids, `i32` error codes). -/
inductive Json where
  | null : Json
  | bool : Bool → Json
  | num : Int → Json
  | str : String → Json
  | arr : List Json → Json
  | obj : List (String × Json) → Json

/-- Failure kinds of the decoders, following the spec's error taxonomy:
an unexpected string for a closed enumeration, a required key that is absent,
and a key present with the wrong JSON type or a constraint-violating value. -/
inductive ErrorKind where
  | UnrecognizedVariant : ErrorKind
  | MissingField : ErrorKind
  | TypeMismatch : ErrorKind
deriving DecidableEq, Repr

/-- A decode failure: its kind plus the offending field name or value. -/
structure DecodeError where
  kind : ErrorKind
  detail : String
deriving DecidableEq, Repr

/-- `Version` from `src/lib.rs`: `One` renamed to `"1.0"`, `Two` to `"2.0"`. -/
inductive Version where
  | One : Version
  | Two : Version
deriving DecidableEq, Repr

/-- Serialization of `Version`: the rename attributes make the variants
serialize as the plain JSON strings `"1.0"` and `"2.0"`. -/
def encodeVersion : Version → Json
  | .One => .str "1.0"
  | .Two => .str "2.0"

/-- Deserialization of `Version`: only the two renamed strings are accepted;
any other string is an unknown variant, and a non-string is a type error. -/
def decodeVersion : Json → Except DecodeError Version
  | .str s =>
      if s = "1.0" then .ok .One
      else if s = "2.0" then .ok .Two
      else .error ⟨.UnrecognizedVariant, s⟩
  | _ => .error ⟨.TypeMismatch, "jsonrpc"⟩

/-- `Header` from `src/lib.rs`: `jsonrpc: Version`, `id: Option<usize>`. -/
structure Header where
  jsonrpc : Version
  id : Option Nat
deriving DecidableEq, Repr

/-- `Header::v1`. -/
def Header.v1 (id : Option Nat) : Header := ⟨.One, id⟩

/-- `Header::v2`. -/
def Header.v2 (id : Option Nat) : Header := ⟨.Two, id⟩

/-- Serialization of the `id: Option<usize>` field: `Some n` is the JSON
number `n`, `None` is JSON `null` (the field is not skipped, so the key is
always emitted). -/
def encodeId : Option Nat → Json
  | some n => .num (n : Int)
  | none => .null

/-- Deserialization of `Option<usize>`: `null` is `none`; a non-negative
integer is `some`; a negative integer or any other JSON value is rejected. -/
def decodeId : Json → Except DecodeError (Option Nat)
  | .null => .ok none
  | .num n => if n < 0 then .error ⟨.TypeMismatch, "id"⟩ else .ok (some n.toNat)
  | _ => .error ⟨.TypeMismatch, "id"⟩

/-- The key/value entries the derived `Header` serializer writes, in field
declaration order. -/
def headerFields (h : Header) : List (String × Json) :=
  [("jsonrpc", encodeVersion h.jsonrpc), ("id", encodeId h.id)]

/-- Serialization of `Header`: a flat object with keys `jsonrpc` and `id`. -/
def encodeHeader (h : Header) : Json := .obj (headerFields h)

/-- The entry walk of the derived `Header` deserializer: entries are visited
in order, `jsonrpc` and `id` values are decoded into the accumulators, and
unknown keys are skipped. -/
def decodeHeaderLoop :
    List (String × Json) → Option Version → Option (Option Nat) →
    Except DecodeError (Option Version × Option (Option Nat))
  | [], accV, accI => .ok (accV, accI)
  | (k, v) :: rest, accV, accI =>
      if k = "jsonrpc" then
        match decodeVersion v with
        | .ok ver => decodeHeaderLoop rest (some ver) accI
        | .error e => .error e
      else if k = "id" then
        match decodeId v with
        | .ok i => decodeHeaderLoop rest accV (some i)
        | .error e => .error e
      else decodeHeaderLoop rest accV accI

/-- Deserialization of `Header` from an object's entries: after the walk, a
missing `jsonrpc` is a missing-field error, while a missing `id` defaults to
`none` (serde defaults absent `Option` fields). -/
def decodeHeaderObj (kvs : List (String × Json)) : Except DecodeError Header :=
  match decodeHeaderLoop kvs none none with
  | .error e => .error e
  | .ok (none, _) => .error ⟨.MissingField, "jsonrpc"⟩
  | .ok (some v, accI) => .ok ⟨v, accI.getD none⟩

/-- Deserialization of `Header` from a JSON value. -/
def decodeHeader : Json → Except DecodeError Header
  | .obj kvs => decodeHeaderObj kvs
  | _ => .error ⟨.TypeMismatch, "Header"⟩

/-- `JsonRpcRequest<T>` from `src/lib.rs`: a header and a payload, both
flattened into one JSON object. -/
structure JsonRpcRequest (T : Type) where
  header : Header
  payload : T
deriving Repr

/-- Serialization of `JsonRpcRequest<T>`: `#[serde(flatten)]` on both fields
writes the header's entries and the payload's entries into one flat object,
in field declaration order.  The payload's serializer is a parameter
(`encT` gives the entries of the payload's own object form). -/
def encodeRequest {T : Type} (encT : T → List (String × Json))
    (r : JsonRpcRequest T) : Json :=
  .obj (headerFields r.header ++ encT r.payload)

/-- Deserialization of `JsonRpcRequest<T>`: the header is decoded from the
object's entries, and the payload decoder `decT` is applied to the object's
entries as well — including the header keys, so payload decoders must
tolerate and ignore `jsonrpc`/`id`. -/
def decodeRequest {T : Type} (decT : List (String × Json) → Except DecodeError T) :
    Json → Except DecodeError (JsonRpcRequest T)
  | .obj kvs =>
      match decodeHeaderObj kvs with
      | .error e => .error e
      | .ok h =>
          match decT kvs with
          | .error e => .error e
          | .ok p => .ok ⟨h, p⟩
  | _ => .error ⟨.TypeMismatch, "JsonRpcRequest"⟩

/-- `Response<R, E>` from `src/lib.rs`: optional `result` and optional
`error`, both with `#[serde(skip_serializing_if = "Option::is_none")]`. -/
structure Response (R E : Type) where
  result : Option R
  error : Option E
deriving Repr

/-- `Response::result` (named `mkResult` because Lean reserves `Response.result`
for the field projection): `result` populated, `error` absent. -/
def Response.mkResult {R E : Type} (result : R) : Response R E :=
  ⟨some result, none⟩

/-- `Response::error` (named `mkError` because Lean reserves `Response.error`
for the field projection): `error` populated, `result` absent. -/
def Response.mkError {R E : Type} (error : E) : Response R E :=
  ⟨none, some error⟩

/-- The entries the derived `Response` serializer writes: each field is
skipped entirely when `none` and emitted under its key when `some`, in field
declaration order. -/
def encodeResponseFields {R E : Type} (encR : R → Json) (encE : E → Json)
    (b : Response R E) : List (String × Json) :=
  (match b.result with
   | some r => [("result", encR r)]
   | none => []) ++
  (match b.error with
   | some e => [("error", encE e)]
   | none => [])

/-- Serialization of `Response<R, E>` as a standalone JSON object. -/
def encodeResponse {R E : Type} (encR : R → Json) (encE : E → Json)
    (b : Response R E) : Json :=
  .obj (encodeResponseFields encR encE b)

/-- Deserialization of an `Option` struct field whose key is present: JSON
`null` decodes to `none`, any other value through the inner decoder. -/
def decodeOptVal {X : Type} (dec : Json → Except DecodeError X) :
    Json → Except DecodeError (Option X)
  | .null => .ok none
  | v =>
      match dec v with
      | .ok x => .ok (some x)
      | .error e => .error e

/-- The entry walk of the derived `Response` deserializer: `result` and
`error` values are decoded into the accumulators, unknown keys are skipped,
and fields whose key never appears stay `none`.  No cross-field check is
performed. -/
def decodeResponseLoop {R E : Type} (decR : Json → Except DecodeError R)
    (decE : Json → Except DecodeError E) :
    List (String × Json) → Option R → Option E → Except DecodeError (Response R E)
  | [], accR, accE => .ok ⟨accR, accE⟩
  | (k, v) :: rest, accR, accE =>
      if k = "result" then
        match decodeOptVal decR v with
        | .ok r => decodeResponseLoop decR decE rest r accE
        | .error e => .error e
      else if k = "error" then
        match decodeOptVal decE v with
        | .ok e => decodeResponseLoop decR decE rest accR e
        | .error err => .error err
      else decodeResponseLoop decR decE rest accR accE

/-- Deserialization of `Response<R, E>` from an object's entries. -/
def decodeResponseObj {R E : Type} (decR : Json → Except DecodeError R)
    (decE : Json → Except DecodeError E) (kvs : List (String × Json)) :
    Except DecodeError (Response R E) :=
  decodeResponseLoop decR decE kvs none none

/-- `JsonRpcResponse<R, E>` from `src/lib.rs`: a newtype around
`JsonRpcRequest<Response<R, E>>`. -/
structure JsonRpcResponse (R E : Type) where
  inner : JsonRpcRequest (Response R E)
deriving Repr

/-- `JsonRpcResponse::result`: wraps `Response::result` under the header. -/
def JsonRpcResponse.result {R E : Type} (header : Header) (result : R) :
    JsonRpcResponse R E :=
  ⟨⟨header, Response.mkResult result⟩⟩

/-- `JsonRpcResponse::error`: wraps `Response::error` under the header. -/
def JsonRpcResponse.error {R E : Type} (header : Header) (error : E) :
    JsonRpcResponse R E :=
  ⟨⟨header, Response.mkError error⟩⟩

/-- Serialization of `JsonRpcResponse<R, E>`: the newtype is transparent, so
it is the flattened request whose payload entries come from `Response`. -/
def encodeJsonRpcResponse {R E : Type} (encR : R → Json) (encE : E → Json)
    (resp : JsonRpcResponse R E) : Json :=
  encodeRequest (encodeResponseFields encR encE) resp.inner

/-- Deserialization of `JsonRpcResponse<R, E>`. -/
def decodeJsonRpcResponse {R E : Type} (decR : Json → Except DecodeError R)
    (decE : Json → Except DecodeError E) (j : Json) :
    Except DecodeError (JsonRpcResponse R E) :=
  match decodeRequest (decodeResponseObj decR decE) j with
  | .ok r => .ok ⟨r⟩
  | .error e => .error e

/-- `TestPayload` from the crate's test suite: `method: String`,
`params: Vec<String>`, with derived serde codecs. -/
structure TestPayload where
  method : String
  params : List String
deriving DecidableEq, Repr

/-- Serialization of `TestPayload`. -/
def encodeTestPayload (p : TestPayload) : List (String × Json) :=
  [("method", .str p.method), ("params", .arr (p.params.map Json.str))]

/-- Deserialization of a JSON string. -/
def decodeString : Json → Except DecodeError String
  | .str s => .ok s
  | _ => .error ⟨.TypeMismatch, "string"⟩

/-- Deserialization of a list of JSON strings. -/
def decodeStringList : List Json → Except DecodeError (List String)
  | [] => .ok []
  | j :: rest =>
      match decodeString j with
      | .error e => .error e
      | .ok s =>
          match decodeStringList rest with
          | .error e => .error e
          | .ok ss => .ok (s :: ss)

/-- Deserialization of `Vec<String>`. -/
def decodeParams : Json → Except DecodeError (List String)
  | .arr xs => decodeStringList xs
  | _ => .error ⟨.TypeMismatch, "params"⟩

/-- The entry walk of the derived `TestPayload` deserializer: known keys are
decoded, unknown keys (such as the flattened-in `jsonrpc` and `id`) are
skipped. -/
def decodeTestPayloadLoop :
    List (String × Json) → Option String → Option (List String) →
    Except DecodeError (Option String × Option (List String))
  | [], accM, accP => .ok (accM, accP)
  | (k, v) :: rest, accM, accP =>
      if k = "method" then
        match decodeString v with
        | .ok m => decodeTestPayloadLoop rest (some m) accP
        | .error e => .error e
      else if k = "params" then
        match decodeParams v with
        | .ok ps => decodeTestPayloadLoop rest accM (some ps)
        | .error e => .error e
      else decodeTestPayloadLoop rest accM accP

/-- Deserialization of `TestPayload` from an object's entries: both fields
are required (they are not `Option`), so an absent key is a missing field. -/
def decodeTestPayload (kvs : List (String × Json)) :
    Except DecodeError TestPayload :=
  match decodeTestPayloadLoop kvs none none with
  | .error e => .error e
  | .ok (none, _) => .error ⟨.MissingField, "method"⟩
  | .ok (some _, none) => .error ⟨.MissingField, "params"⟩
  | .ok (some m, some ps) => .ok ⟨m, ps⟩

/-- `TestError` from the crate's test suite: `code: i32`, `message: String`. -/
structure TestError where
  code : Int
  message : String
deriving DecidableEq, Repr

/-- Serialization of `TestError`. -/
def encodeTestError (e : TestError) : Json :=
  .obj [("code", .num e.code), ("message", .str e.message)]

/-- Serialization of the unit type `()`, which Rust's serde writes as `null`. -/
def encodeUnit : Unit → Json := fun _ => .null

lemma decodeVersion_encodeVersion (v : Version) :
    decodeVersion (encodeVersion v) = .ok v := by
  cases v <;> rfl

lemma decodeId_encodeId (i : Option Nat) : decodeId (encodeId i) = .ok i := by
  cases i with
  | none => rfl
  | some n =>
      have h : ¬((n : Int) < 0) := by omega
      simp [encodeId, decodeId, h]

lemma decodeHeaderLoop_skip (l rest : List (String × Json))
    (accV : Option Version) (accI : Option (Option Nat))
    (hl : ∀ p ∈ l, p.1 ≠ "jsonrpc" ∧ p.1 ≠ "id") :
    decodeHeaderLoop (l ++ rest) accV accI = decodeHeaderLoop rest accV accI := by
  induction l generalizing accV accI with
  | nil => rfl
  | cons p l ih =>
      obtain ⟨k, v⟩ := p
      have hk := hl ⟨k, v⟩ (List.mem_cons_self _ _)
      simp only [List.cons_append, decodeHeaderLoop, if_neg hk.1, if_neg hk.2]
      exact ih accV accI (fun q hq => hl q (List.mem_cons_of_mem _ hq))

lemma decodeHeaderLoop_headerFields (h : Header) (rest : List (String × Json))
    (accV : Option Version) (accI : Option (Option Nat)) :
    decodeHeaderLoop (headerFields h ++ rest) accV accI
      = decodeHeaderLoop rest (some h.jsonrpc) (some h.id) := by
  simp [headerFields, decodeHeaderLoop, decodeVersion_encodeVersion,
    decodeId_encodeId]

lemma decodeHeaderObj_pre_post (h : Header) (pre post : List (String × Json))
    (hpre : ∀ p ∈ pre, p.1 ≠ "jsonrpc" ∧ p.1 ≠ "id")
    (hpost : ∀ p ∈ post, p.1 ≠ "jsonrpc" ∧ p.1 ≠ "id") :
    decodeHeaderObj (pre ++ (headerFields h ++ post)) = .ok h := by
  unfold decodeHeaderObj
  rw [decodeHeaderLoop_skip pre _ _ _ hpre, decodeHeaderLoop_headerFields]
  have hp : decodeHeaderLoop post (some h.jsonrpc) (some h.id)
      = .ok (some h.jsonrpc, some h.id) := by
    have := decodeHeaderLoop_skip post [] (some h.jsonrpc) (some h.id) hpost
    simpa using this
  rw [hp]
  rfl

lemma decodeHeaderLoop_no_jsonrpc (kvs : List (String × Json))
    (accI : Option (Option Nat))
    (h1 : ∀ p ∈ kvs, p.1 ≠ "jsonrpc")
    (h2 : ∀ p ∈ kvs, p.1 = "id" → ∃ i, decodeId p.2 = .ok i) :
    ∃ accI', decodeHeaderLoop kvs none accI = .ok (none, accI') := by
  induction kvs generalizing accI with
  | nil => exact ⟨accI, rfl⟩
  | cons p rest ih =>
      obtain ⟨k, v⟩ := p
      have hk1 := h1 ⟨k, v⟩ (List.mem_cons_self _ _)
      have h1' : ∀ q ∈ rest, q.1 ≠ "jsonrpc" :=
        fun q hq => h1 q (List.mem_cons_of_mem _ hq)
      have h2' : ∀ q ∈ rest, q.1 = "id" → ∃ i, decodeId q.2 = .ok i :=
        fun q hq => h2 q (List.mem_cons_of_mem _ hq)
      by_cases hk : k = "id"
      · obtain ⟨i, hi⟩ := h2 ⟨k, v⟩ (List.mem_cons_self _ _) hk
        simp only [decodeHeaderLoop, if_neg hk1, if_pos hk, hi]
        exact ih (some i) h1' h2'
      · simp only [decodeHeaderLoop, if_neg hk1, if_neg hk]
        exact ih accI h1' h2'

lemma decodeId_other (v : Json) (hnull : v ≠ .null) (hnum : ∀ n, v ≠ .num n) :
    decodeId v = .error ⟨.TypeMismatch, "id"⟩ := by
  cases v with
  | null => exact absurd rfl hnull
  | num n => exact absurd rfl (hnum n)
  | bool b => rfl
  | str s => rfl
  | arr xs => rfl
  | obj kvs => rfl

/-- Claim C1: round-trip of every codec type — `decode (encode v) = ok v` for
every `Version`, `decode (encode h) = ok h` for every `Header`, and
`decode (encode r) = ok r` for every request whose payload encodes to keys
disjoint from `jsonrpc`/`id` and whose payload decoder tolerates and ignores
those flattened-in header keys (the flattening constraint, stated as the
hypothesis that the payload decoder recovers the payload from the merged
entry list). -/
theorem roundtrip_version_header_request (T : Type)
    (encT : T → List (String × Json))
    (decT : List (String × Json) → Except DecodeError T)
    (r : JsonRpcRequest T)
    (hkeys : ∀ p ∈ encT r.payload, p.1 ≠ "jsonrpc" ∧ p.1 ≠ "id")
    (hflat : decT (headerFields r.header ++ encT r.payload) = .ok r.payload) :
    (∀ v, decodeVersion (encodeVersion v) = .ok v)
    ∧ (∀ h, decodeHeader (encodeHeader h) = .ok h)
    ∧ decodeRequest decT (encodeRequest encT r) = .ok r := by
  refine ⟨decodeVersion_encodeVersion, ?_, ?_⟩
  · intro h
    have := decodeHeaderObj_pre_post h [] [] (by simp) (by simp)
    simpa [decodeHeader, encodeHeader] using this
  · have hh : decodeHeaderObj (headerFields r.header ++ encT r.payload)
        = .ok r.header := by
      have := decodeHeaderObj_pre_post r.header [] (encT r.payload)
        (by simp) hkeys
      simpa using this
    simp [decodeRequest, encodeRequest, hh, hflat]

/-- Witness for C1 at the request from the crate's `test_json_rpc_request`
test: header `v2`/id 1 with payload `method = "test"`, `params = ["a","b"]`. -/
theorem roundtrip_version_header_request_witness :
    (∀ v, decodeVersion (encodeVersion v) = .ok v)
    ∧ (∀ h, decodeHeader (encodeHeader h) = .ok h)
    ∧ decodeRequest decodeTestPayload
        (encodeRequest encodeTestPayload ⟨Header.v2 (some 1), ⟨"test", ["a", "b"]⟩⟩)
      = .ok ⟨Header.v2 (some 1), ⟨"test", ["a", "b"]⟩⟩ :=
  roundtrip_version_header_request TestPayload encodeTestPayload
    decodeTestPayload ⟨Header.v2 (some 1), ⟨"test", ["a", "b"]⟩⟩
    (by decide) (by rfl)

/-- Claim C2: encoding a request yields the single flat object made of the
header's entries followed by the payload's entries at the same nesting level;
decoding splits it back, giving the payload decoder the entire entry list
including the header keys; and the concrete request of the crate's test
encodes to and decodes from
`{"jsonrpc": "2.0", "id": 1, "method": "test", "params": ["a","b"]}`. -/
theorem request_flatten_contract :
    (∀ (T : Type) (encT : T → List (String × Json)) (r : JsonRpcRequest T),
        encodeRequest encT r = Json.obj (headerFields r.header ++ encT r.payload)
        ∧ encodeHeader r.header = Json.obj (headerFields r.header))
    ∧ (∀ (T : Type) (decT : List (String × Json) → Except DecodeError T)
        (kvs : List (String × Json)) (h : Header),
        decodeHeaderObj kvs = .ok h →
        decodeRequest decT (Json.obj kvs) = (decT kvs).map (fun p => ⟨h, p⟩))
    ∧ encodeRequest encodeTestPayload ⟨Header.v2 (some 1), ⟨"test", ["a", "b"]⟩⟩
        = Json.obj [("jsonrpc", .str "2.0"), ("id", .num 1),
            ("method", .str "test"), ("params", .arr [.str "a", .str "b"])]
    ∧ decodeRequest decodeTestPayload
        (Json.obj [("jsonrpc", .str "2.0"), ("id", .num 1),
            ("method", .str "test"), ("params", .arr [.str "a", .str "b"])])
        = .ok ⟨Header.v2 (some 1), ⟨"test", ["a", "b"]⟩⟩ := by
  refine ⟨fun T encT r => ⟨rfl, rfl⟩, ?_, rfl, rfl⟩
  intro T decT kvs h hh
  simp only [decodeRequest, hh]
  cases decT kvs <;> rfl

/-- Witness for C2's decode-split conjunct at the concrete test object: the
payload decoder receives the full entry list, header keys included. -/
theorem request_flatten_contract_witness :
    decodeRequest decodeTestPayload
        (Json.obj [("jsonrpc", .str "2.0"), ("id", .num 1),
            ("method", .str "test"), ("params", .arr [.str "a", .str "b"])])
      = (decodeTestPayload [("jsonrpc", .str "2.0"), ("id", .num 1),
            ("method", .str "test"), ("params", .arr [.str "a", .str "b"])]).map
          (fun p => ⟨Header.v2 (some 1), p⟩) :=
  request_flatten_contract.2.1 TestPayload decodeTestPayload
    [("jsonrpc", .str "2.0"), ("id", .num 1),
      ("method", .str "test"), ("params", .arr [.str "a", .str "b"])]
    (Header.v2 (some 1)) (by rfl)

/-- Claim C3: header decoding fails with the stated kinds — an object with no
`jsonrpc` key (and a well-formed `id`, if any) fails with `MissingField`; an
`id` key holding a non-null non-integer value fails with `TypeMismatch`; an
`id` key holding a negative integer fails with `TypeMismatch`. -/
theorem header_decode_error_kinds :
    (∀ kvs : List (String × Json),
        (∀ p ∈ kvs, p.1 ≠ "jsonrpc") →
        (∀ p ∈ kvs, p.1 = "id" → ∃ i, decodeId p.2 = .ok i) →
        decodeHeader (Json.obj kvs) = .error ⟨.MissingField, "jsonrpc"⟩)
    ∧ (∀ (ver : Version) (v : Json), v ≠ Json.null → (∀ n, v ≠ Json.num n) →
        decodeHeader (Json.obj [("jsonrpc", encodeVersion ver), ("id", v)])
          = .error ⟨.TypeMismatch, "id"⟩)
    ∧ (∀ (ver : Version) (n : Int), n < 0 →
        decodeHeader (Json.obj [("jsonrpc", encodeVersion ver), ("id", Json.num n)])
          = .error ⟨.TypeMismatch, "id"⟩) := by
  refine ⟨?_, ?_, ?_⟩
  · intro kvs h1 h2
    obtain ⟨accI', hloop⟩ := decodeHeaderLoop_no_jsonrpc kvs none h1 h2
    simp [decodeHeader, decodeHeaderObj, hloop]
  · intro ver v hnull hnum
    have hid := decodeId_other v hnull hnum
    simp [decodeHeader, decodeHeaderObj, decodeHeaderLoop,
      decodeVersion_encodeVersion, hid]
  · intro ver n hn
    have hid : decodeId (Json.num n) = .error ⟨.TypeMismatch, "id"⟩ := by
      simp [decodeId, hn]
    simp [decodeHeader, decodeHeaderObj, decodeHeaderLoop,
      decodeVersion_encodeVersion, hid]

/-- Witness for C3 at concrete inputs: `{"id": 5}`, `{"jsonrpc": "2.0",
"id": "x"}`, and `{"jsonrpc": "1.0", "id": -3}`. -/
theorem header_decode_error_kinds_witness :
    decodeHeader (Json.obj [("id", Json.num 5)])
      = .error ⟨.MissingField, "jsonrpc"⟩
    ∧ decodeHeader (Json.obj [("jsonrpc", Json.str "2.0"), ("id", Json.str "x")])
      = .error ⟨.TypeMismatch, "id"⟩
    ∧ decodeHeader (Json.obj [("jsonrpc", Json.str "1.0"), ("id", Json.num (-3))])
      = .error ⟨.TypeMismatch, "id"⟩ :=
  ⟨header_decode_error_kinds.1 [("id", Json.num 5)] (by decide)
      (fun p _ _ => ⟨some 5, by simp_all [decodeId]⟩),
   header_decode_error_kinds.2.1 Version.Two (Json.str "x")
      (fun h => Json.noConfusion h) (fun n h => Json.noConfusion h),
   header_decode_error_kinds.2.2 Version.One (-3) (by norm_num)⟩

/-- Claim C4: encoding a header always yields a flat object whose `jsonrpc`
key holds the version string and whose `id` key is always present — a number
when the id is set, `null` when it is absent — and in particular
`encode(Header{v2, id: Some 42})` is `{"jsonrpc":"2.0","id":42}` and
`encode(Header{v1, id: None})` is `{"jsonrpc":"1.0","id":null}`. -/
theorem header_encode_shape :
    (∀ h : Header,
        encodeHeader h = Json.obj [("jsonrpc", encodeVersion h.jsonrpc),
          ("id", match h.id with
                 | some n => Json.num (n : Int)
                 | none => Json.null)])
    ∧ encodeHeader (Header.v2 (some 42))
        = Json.obj [("jsonrpc", .str "2.0"), ("id", .num 42)]
    ∧ encodeHeader (Header.v1 none)
        = Json.obj [("jsonrpc", .str "1.0"), ("id", .null)] := by
  refine ⟨?_, rfl, rfl⟩
  intro h
  cases h with
  | mk v i => cases i <;> rfl

/-- Claim C5: `Version` is a closed two-value enumeration — `One` encodes to
the string `"1.0"` and `Two` to `"2.0"`, those two strings decode back, any
other string fails with `UnrecognizedVariant`, and a header carrying
`"jsonrpc": "3.0"` fails to decode with `UnrecognizedVariant`. -/
theorem version_codec_closed :
    encodeVersion .One = Json.str "1.0"
    ∧ encodeVersion .Two = Json.str "2.0"
    ∧ decodeVersion (Json.str "1.0") = .ok .One
    ∧ decodeVersion (Json.str "2.0") = .ok .Two
    ∧ (∀ s : String, s ≠ "1.0" → s ≠ "2.0" →
        decodeVersion (Json.str s) = .error ⟨.UnrecognizedVariant, s⟩)
    ∧ decodeHeader (Json.obj [("jsonrpc", Json.str "3.0"), ("id", Json.num 1)])
        = .error ⟨.UnrecognizedVariant, "3.0"⟩ := by
  refine ⟨rfl, rfl, rfl, rfl, ?_, rfl⟩
  intro s h1 h2
  simp [decodeVersion, h1, h2]

/-- Witness for C5 at the string `"3.0"`. -/
theorem version_codec_closed_witness :
    decodeVersion (Json.str "3.0") = .error ⟨.UnrecognizedVariant, "3.0"⟩ :=
  version_codec_closed.2.2.2.2.1 "3.0" (by decide) (by decide)

/-- Claim C6: the `Response` serializer emits the `result` key exactly when
`result` is set and the `error` key exactly when `error` is set — both keys
when both are set, the empty object when neither is, and an unset field's key
is omitted entirely, never emitted as `null`. -/
theorem response_encode_key_presence (R E : Type) (encR : R → Json)
    (encE : E → Json) (b : Response R E) :
    (encodeResponseFields encR encE b).map Prod.fst
      = (if b.result.isSome then ["result"] else [])
        ++ (if b.error.isSome then ["error"] else [])
    ∧ (b.result = none → b.error = none →
        encodeResponse encR encE b = Json.obj [])
    ∧ (b.error = none →
        "error" ∉ (encodeResponseFields encR encE b).map Prod.fst) := by
  obtain ⟨r?, e?⟩ := b
  cases r? <;> cases e? <;>
    simp [encodeResponseFields, encodeResponse]

/-- Witness for C6: both-absent gives the empty object, and a result-only
body has no `error` key. -/
theorem response_encode_key_presence_witness :
    encodeResponse Json.str encodeUnit (⟨none, none⟩ : Response String Unit)
      = Json.obj []
    ∧ "error" ∉ (encodeResponseFields Json.str encodeUnit
        (⟨some "ok", none⟩ : Response String Unit)).map Prod.fst :=
  ⟨(response_encode_key_presence String Unit Json.str encodeUnit
      ⟨none, none⟩).2.1 rfl rfl,
   (response_encode_key_presence String Unit Json.str encodeUnit
      ⟨some "ok", none⟩).2.2 rfl⟩

/-- Claim C7: the sanctioned constructors are mutually exclusive —
`JsonRpcResponse::result` populates `result` and leaves `error` absent,
`JsonRpcResponse::error` does the opposite — and encoding
`JsonRpcResponse::error(Header::v2(Some 42), {code: -32600, message:
"Invalid Request"})` yields the expected object with no `result` key. -/
theorem response_constructors_exclusive :
    (∀ (R E : Type) (h : Header) (r : R),
        (JsonRpcResponse.result h r : JsonRpcResponse R E)
          = ⟨⟨h, ⟨some r, none⟩⟩⟩)
    ∧ (∀ (R E : Type) (h : Header) (e : E),
        (JsonRpcResponse.error h e : JsonRpcResponse R E)
          = ⟨⟨h, ⟨none, some e⟩⟩⟩)
    ∧ encodeJsonRpcResponse encodeUnit encodeTestError
        (JsonRpcResponse.error (Header.v2 (some 42)) ⟨-32600, "Invalid Request"⟩)
        = Json.obj [("jsonrpc", .str "2.0"), ("id", .num 42),
            ("error", Json.obj [("code", .num (-32600)),
              ("message", .str "Invalid Request")])]
    ∧ "result" ∉ (encodeResponseFields encodeUnit encodeTestError
        (Response.mkError ⟨-32600, "Invalid Request"⟩
          : Response Unit TestError)).map Prod.fst := by
  refine ⟨fun R E h r => rfl, fun R E h e => rfl, rfl, ?_⟩
  simp [encodeResponseFields, Response.mkError]

/-- Claim C8: decoding a `Response` body is lenient, with no cross-field
check — each of `result`/`error`, when its key is present, is decoded into
the corresponding optional field, and when absent the field is `none`; an
object carrying both keys, or neither, decodes successfully. -/
theorem response_decode_lenient (R E : Type)
    (decR : Json → Except DecodeError R) (decE : Json → Except DecodeError E)
    (rv ev : Json) (r? : Option R) (e? : Option E)
    (hrv : decodeOptVal decR rv = .ok r?)
    (hev : decodeOptVal decE ev = .ok e?) :
    decodeResponseObj decR decE [("result", rv), ("error", ev)] = .ok ⟨r?, e?⟩
    ∧ decodeResponseObj decR decE ([] : List (String × Json))
        = .ok (⟨none, none⟩ : Response R E) := by
  constructor
  · simp [decodeResponseObj, decodeResponseLoop, hrv, hev]
  · rfl

/-- Witness for C8: an object with both `result` and `error` decodes into a
body carrying both, and the empty object into a body carrying neither. -/
theorem response_decode_lenient_witness :
    decodeResponseObj decodeString decodeString
        [("result", Json.str "ok"), ("error", Json.str "bad")]
      = .ok ⟨some "ok", some "bad"⟩
    ∧ decodeResponseObj decodeString decodeString ([] : List (String × Json))
      = .ok (⟨none, none⟩ : Response String String) :=
  response_decode_lenient String String decodeString decodeString
    (Json.str "ok") (Json.str "bad") (some "ok") (some "bad") rfl rfl

/-- Claim C9: decode/encode asymmetry of `id` — an object that lacks the `id`
key entirely still decodes, yielding `id = none`, exactly as an explicit
`"id": null` does; neither is a `MissingField` error. -/
theorem header_decode_missing_id (v : Version) :
    decodeHeader (Json.obj [("jsonrpc", encodeVersion v)]) = .ok ⟨v, none⟩
    ∧ decodeHeader (Json.obj [("jsonrpc", encodeVersion v), ("id", Json.null)])
        = .ok ⟨v, none⟩ := by
  cases v <;> exact ⟨rfl, rfl⟩

/-- Claim C10: decoding a header tolerates unknown keys — any entries with
keys other than `jsonrpc`/`id`, placed before or after the header's own valid
entries, are silently ignored. -/
theorem header_decode_ignores_unknown_keys (h : Header)
    (pre post : List (String × Json))
    (hpre : ∀ p ∈ pre, p.1 ≠ "jsonrpc" ∧ p.1 ≠ "id")
    (hpost : ∀ p ∈ post, p.1 ≠ "jsonrpc" ∧ p.1 ≠ "id") :
    decodeHeader (Json.obj (pre ++ (headerFields h ++ post))) = .ok h :=
  decodeHeaderObj_pre_post h pre post hpre hpost

/-- Witness for C10 with the extra keys `extra` and `more` around a valid
`v2`/id 7 header. -/
theorem header_decode_ignores_unknown_keys_witness :
    decodeHeader (Json.obj ([("extra", Json.bool true)]
        ++ (headerFields (Header.v2 (some 7)) ++ [("more", Json.str "x")])))
      = .ok (Header.v2 (some 7)) :=
  header_decode_ignores_unknown_keys (Header.v2 (some 7))
    [("extra", Json.bool true)] [("more", Json.str "x")]
    (by decide) (by decide)

/-- Witness for C9 at version `Two`. -/
theorem header_decode_missing_id_witness :
    decodeHeader (Json.obj [("jsonrpc", encodeVersion Version.Two)])
      = .ok ⟨Version.Two, none⟩
    ∧ decodeHeader (Json.obj [("jsonrpc", encodeVersion Version.Two),
        ("id", Json.null)]) = .ok ⟨Version.Two, none⟩ :=
  header_decode_missing_id Version.Two
